import Mathlib

/-!
Shallow embedding of the RFM customer-segmentation pipeline implemented in
src/utils.py (functions load_and_merge_raw_data, clean_data,
calculate_rfm_metrics, segment_customers) together with theorems checking the
natural-language specification against it.

Modelling conventions:
* a pandas DataFrame is a list of typed rows, in row order;
* nullable columns are Option-valued; NaN/NaT is none;
* timestamps are whole seconds (an Int); one day is 86400 seconds; the .days
  field of a pandas Timedelta is floor division by one day, which for the
  nonnegative differences arising here coincides with Int division;
* money amounts are rationals (the idealisation of float64 used throughout);
* pd.qcut(xs, 5, labels) computes the 6 quantile edges of xs at
  0, 0.2, ..., 1.0 by linear interpolation on the sorted values (numpy default
  interpolation: at virtual index h = (n-1)*q the value is
  x[floor h] + frac(h) * (x[floor h + 1] - x[floor h])), raises a ValueError
  when the edges are not pairwise distinct (this also happens for an empty or
  singleton column, whose edges degenerate), and otherwise assigns each value
  the label of its right-closed bucket, the minimum going to the first bucket;
  the raised ValueError is modelled as an Except error tagged with the metric
  being cut, standing for the abort of the run;
* Series.rank(method = first) assigns rank 1 + (number of strictly smaller
  entries) + (number of equal entries at earlier positions);
* groupby(key) with the default sort = True enumerates groups in ascending
  key order (for string keys: lexicographic by code point);
* reading a CSV is modelled as an Option-valued input, none standing for an
  absent/unreadable file (the FileNotFoundError branch of the source);
* pandas assignment df[col] = v mutates the frame object in place; for each
  pipeline stage an argAfter function gives the value of the caller's
  argument object after the call, so that in-place mutation is observable.
-/

namespace RFMPipeline

/-- Raw content of a date column before pd.to_datetime: a parseable timestamp
(modelled as whole seconds), an unparseable string, or a missing value. -/
inductive RawDate
  | val (t : Int)
  | unparseable
  | null
deriving DecidableEq

/-- pd.to_datetime(col, errors = coerce): unparseable and missing values both
become NaT (here: none); parseable values are kept. -/
def parseDate : RawDate → Option Int
  | .val t => some t
  | .unparseable => none
  | .null => none

/-- One row of olist_orders_dataset.csv (the columns the pipeline reads). -/
structure OrderRow where
  order_id : String
  customer_id : String
  order_status : String
  order_purchase_timestamp : RawDate
  order_approved_at : RawDate
  order_delivered_customer_date : RawDate
deriving DecidableEq

/-- One row of olist_order_items_dataset.csv (the columns the pipeline reads). -/
structure ItemRow where
  order_id : String
  price : ℚ
  freight_value : ℚ
deriving DecidableEq

/-- One row of olist_customers_dataset.csv (the columns the pipeline reads).
customer_unique_id is Option-valued so that the null-dropping step of the
cleaner is observable. -/
structure CustomerRow where
  customer_id : String
  customer_unique_id : Option String
deriving DecidableEq

/-- A row of df_orders.merge(df_items, on = order_id, how = left): item fields
are null exactly when the order matched no item row. -/
structure OrderItemRow where
  order_id : String
  customer_id : String
  order_status : String
  order_purchase_timestamp : RawDate
  order_approved_at : RawDate
  order_delivered_customer_date : RawDate
  price : Option ℚ
  freight_value : Option ℚ
deriving DecidableEq

/-- A row of the master frame: the previous merge inner-joined with the
customers table on customer_id. -/
structure MergedRow where
  order_id : String
  customer_id : String
  order_status : String
  order_purchase_timestamp : RawDate
  order_approved_at : RawDate
  order_delivered_customer_date : RawDate
  price : Option ℚ
  freight_value : Option ℚ
  customer_unique_id : Option String
deriving DecidableEq

/-- The left-join row of an order that matched no item: null item fields. -/
def nullItemRow (o : OrderRow) : OrderItemRow :=
  { order_id := o.order_id, customer_id := o.customer_id,
    order_status := o.order_status,
    order_purchase_timestamp := o.order_purchase_timestamp,
    order_approved_at := o.order_approved_at,
    order_delivered_customer_date := o.order_delivered_customer_date,
    price := none, freight_value := none }

/-- The left-join row of an order and one matching item. -/
def joinedItemRow (o : OrderRow) (it : ItemRow) : OrderItemRow :=
  { order_id := o.order_id, customer_id := o.customer_id,
    order_status := o.order_status,
    order_purchase_timestamp := o.order_purchase_timestamp,
    order_approved_at := o.order_approved_at,
    order_delivered_customer_date := o.order_delivered_customer_date,
    price := some it.price, freight_value := some it.freight_value }

/-- The contribution of one order row to orders LEFT JOIN items: a single row
with null item fields when the order matches no item, else one row per
matching item. -/
def orderItemRowsFor (items : List ItemRow) (o : OrderRow) : List OrderItemRow :=
  if (items.filter (fun it => it.order_id == o.order_id)).isEmpty then
    [nullItemRow o]
  else (items.filter (fun it => it.order_id == o.order_id)).map (joinedItemRow o)

/-- orders LEFT JOIN items on order_id: every order row is preserved; an order
with no matching item yields a single row with null item fields, an order with
matching items yields one row per match. -/
def mergeOrderItems (orders : List OrderRow) (items : List ItemRow) :
    List OrderItemRow :=
  orders.flatMap (orderItemRowsFor items)

/-- (orders+items) INNER JOIN customers on customer_id: one output row per
matching customer row; rows with no matching customer are dropped. -/
def mergeCustomers (oi : List OrderItemRow) (custs : List CustomerRow) :
    List MergedRow :=
  oi.flatMap (fun r =>
    (custs.filter (fun c => c.customer_id == r.customer_id)).map (fun c =>
      { order_id := r.order_id, customer_id := r.customer_id,
        order_status := r.order_status,
        order_purchase_timestamp := r.order_purchase_timestamp,
        order_approved_at := r.order_approved_at,
        order_delivered_customer_date := r.order_delivered_customer_date,
        price := r.price, freight_value := r.freight_value,
        customer_unique_id := c.customer_unique_id }))

/-- The single failure of the loader: a required CSV is absent/unreadable
(the FileNotFoundError branch of load_and_merge_raw_data, which prints and
returns None, aborting the pipeline). -/
inductive LoadError
  | sourceUnavailable
deriving DecidableEq

/-- load_and_merge_raw_data: each input is none when its CSV cannot be read;
if all three read, the result is the left join of orders with items followed
by the inner join with customers. -/
def load_and_merge_raw_data (orders : Option (List OrderRow))
    (items : Option (List ItemRow)) (custs : Option (List CustomerRow)) :
    Except LoadError (List MergedRow) :=
  match orders, items, custs with
  | some os, some its, some cs => .ok (mergeCustomers (mergeOrderItems os its) cs)
  | _, _, _ => .error .sourceUnavailable

/-- The master frame after step 1 of clean_data (the three date columns parsed
with errors = coerce). -/
structure ParsedRow where
  order_id : String
  customer_id : String
  order_status : String
  order_purchase_timestamp : Option Int
  order_approved_at : Option Int
  order_delivered_customer_date : Option Int
  price : Option ℚ
  freight_value : Option ℚ
  customer_unique_id : Option String
deriving DecidableEq

/-- A row of the cleaned frame: price/freight coerced, total_value derived. -/
structure CleanedRow where
  order_id : String
  customer_id : String
  order_status : String
  order_purchase_timestamp : Option Int
  order_approved_at : Option Int
  order_delivered_customer_date : Option Int
  price : ℚ
  freight_value : ℚ
  customer_unique_id : Option String
  total_value : ℚ
deriving DecidableEq

/-- Step 1 of clean_data, on one row: parse the three date columns. -/
def parseRow (r : MergedRow) : ParsedRow :=
  { order_id := r.order_id, customer_id := r.customer_id,
    order_status := r.order_status,
    order_purchase_timestamp := parseDate r.order_purchase_timestamp,
    order_approved_at := parseDate r.order_approved_at,
    order_delivered_customer_date := parseDate r.order_delivered_customer_date,
    price := r.price, freight_value := r.freight_value,
    customer_unique_id := r.customer_unique_id }

/-- Steps 4 and 5 of clean_data, on one row: fillna(0) on price and
freight_value, then total_value = price + freight_value. -/
def fillRow (r : ParsedRow) : CleanedRow :=
  { order_id := r.order_id, customer_id := r.customer_id,
    order_status := r.order_status,
    order_purchase_timestamp := r.order_purchase_timestamp,
    order_approved_at := r.order_approved_at,
    order_delivered_customer_date := r.order_delivered_customer_date,
    price := r.price.getD 0, freight_value := r.freight_value.getD 0,
    customer_unique_id := r.customer_unique_id,
    total_value := r.price.getD 0 + r.freight_value.getD 0 }

/-- clean_data: date parsing, then the order_status == delivered filter, then
dropna on purchase timestamp and customer_unique_id, then null coercion and
the total_value derivation.  The function starts from df.copy(), so the
caller's frame is untouched (see clean_data_argAfter). -/
def clean_data (df : List MergedRow) : List CleanedRow :=
  let parsed := df.map parseRow
  let delivered := parsed.filter (fun r => r.order_status == "delivered")
  let nonNull := delivered.filter (fun r =>
    r.order_purchase_timestamp.isSome && r.customer_unique_id.isSome)
  nonNull.map fillRow

/-- clean_data copies its argument before any mutation (df.copy() on line 55),
so the caller's frame after the call is the original frame. -/
def clean_data_argAfter (df : List MergedRow) : List MergedRow := df

/-- The columns of the cleaned frame that calculate_rfm_metrics reads.  On the
output of clean_data the two getD defaults never fire (the cleaner dropped
those nulls). -/
structure TxRow where
  customer_unique_id : String
  order_id : String
  order_purchase_timestamp : Int
  total_value : ℚ
deriving DecidableEq

/-- Projection of the cleaned frame to the columns the aggregator reads. -/
def toTxRows (df : List CleanedRow) : List TxRow :=
  df.map (fun r =>
    { customer_unique_id := r.customer_unique_id.getD "",
      order_id := r.order_id,
      order_purchase_timestamp := r.order_purchase_timestamp.getD 0,
      total_value := r.total_value })

/-- One day, in the whole-second timestamp model. -/
def secondsPerDay : Int := 86400

/-- Line 90: present_date = df[order_purchase_timestamp].max() + 1 day. -/
def presentDate (df : List TxRow) : Int :=
  ((df.map (fun r => r.order_purchase_timestamp)).max?.getD 0) + secondsPerDay

/-- Lexicographic order on code points, as a Boolean comparator; this is the
order Python uses on str, hence the ascending key order of groupby. -/
def charListLe : List Char → List Char → Bool
  | [], _ => true
  | _ :: _, [] => false
  | c :: cs, d :: ds =>
    if c.val < d.val then true
    else if d.val < c.val then false
    else charListLe cs ds

/-- The groupby key order on customer_unique_id strings. -/
def strLe (a b : String) : Prop := charListLe a.data b.data = true

instance (a b : String) : Decidable (strLe a b) := by
  unfold strLe; infer_instance

/-- The group keys of df.groupby(customer_unique_id): the distinct customer
ids, in ascending order (groupby default sort = True). -/
def sortedKeys (df : List TxRow) : List String :=
  List.insertionSort strLe ((df.map (fun r => r.customer_unique_id)).dedup)

/-- The rows of one customer group. -/
def customerRows (df : List TxRow) (c : String) : List TxRow :=
  df.filter (fun r => r.customer_unique_id == c)

/-- x.max() over the purchase timestamps of a group. -/
def groupMaxTs (rows : List TxRow) : Int :=
  ((rows.map (fun r => r.order_purchase_timestamp)).max?).getD 0

/-- One row of the aggregated frame before scoring (lines 92-99). -/
structure RFMBase where
  customer_unique_id : String
  Recency : Int
  Frequency : Nat
  Monetary : ℚ
deriving DecidableEq

/-- Lines 92-99: group by customer_unique_id and aggregate
Recency = (present_date - x.max()).days, Frequency = nunique(order_id),
Monetary = sum(total_value).  Int division by one day is the .days floor for
the nonnegative differences arising here. -/
def rfmMetrics (df : List TxRow) : List RFMBase :=
  (sortedKeys df).map (fun c =>
    { customer_unique_id := c,
      Recency := (presentDate df - groupMaxTs (customerRows df c)) / secondsPerDay,
      Frequency := (((customerRows df c).map (fun r => r.order_id)).dedup).length,
      Monetary := ((customerRows df c).map (fun r => r.total_value)).sum })

/-- The abort of the run when pd.qcut raises (bin edges not unique); tagged
with which metric was being cut. -/
inductive ScoringError
  | bucket (metric : String)
deriving DecidableEq

/-- The i-th (i = 0..5) quantile edge of a sorted list of length n: linear
interpolation at virtual index h = (n-1) * i/5, whose floor is
(n-1)*i / 5 (natural division) and whose fractional part is ((n-1)*i % 5)/5;
the value is x0 + frac * (x1 - x0) where x0, x1 are the entries at the floor
index and the next index (falling back to x0 at the right end). -/
def quantileEdge (sorted : List ℚ) (i : ℕ) : ℚ :=
  sorted.getD ((sorted.length - 1) * i / 5) 0 +
    ((((sorted.length - 1) * i % 5 : ℕ) : ℚ) / 5) *
      (sorted.getD ((sorted.length - 1) * i / 5 + 1)
        (sorted.getD ((sorted.length - 1) * i / 5) 0) -
       sorted.getD ((sorted.length - 1) * i / 5) 0)

/-- The 6 quintile edges pd.qcut(xs, 5) computes. -/
def quantileEdges (xs : List ℚ) : List ℚ :=
  (List.range 6).map (quantileEdge (List.insertionSort (· ≤ ·) xs))

/-- The bucket (0..4) of a value, for pairwise-distinct edges: the number of
internal edges strictly below it (right-closed buckets, the minimum joining
bucket 0). -/
def binOf (edges : List ℚ) (v : ℚ) : ℕ :=
  ((edges.drop 1).take 4).countP (fun e => decide (e < v))

/-- pd.qcut(xs, 5) up to labelling: the bucket index of every entry, or the
duplicate-bin-edges error. -/
def qcutBins (xs : List ℚ) (metric : String) : Except ScoringError (List ℕ) :=
  let edges := quantileEdges xs
  if edges.Nodup then .ok (xs.map (binOf edges))
  else .error (.bucket metric)

/-- pd.qcut(xs, 5, labels): label of the bucket of every entry. -/
def qcut5 (xs : List ℚ) (labels : List ℕ) (metric : String) :
    Except ScoringError (List ℕ) :=
  (qcutBins xs metric).map (fun bs => bs.map (fun b => labels.getD b 0))

/-- The positions ranked strictly before position i by rank(method = first):
strictly smaller entries anywhere, and equal entries at earlier positions. -/
def rankSet (xs : List ℚ) (i : ℕ) : Finset ℕ :=
  (Finset.range xs.length).filter (fun j =>
    xs.getD j 0 < xs.getD i 0 ∨ (j < i ∧ xs.getD j 0 = xs.getD i 0))

/-- Series.rank(method = first): 1 + number of strictly smaller entries
+ number of equal entries at strictly earlier positions. -/
def rankFirst (xs : List ℚ) : List ℚ :=
  (List.range xs.length).map (fun i => (1 : ℚ) + ((rankSet xs i).card : ℚ))

/-- The sorted value of a rank column of n rows: the rationals 1, 2, ..., n.
Used to reason about the quintile edges of rank-transformed data. -/
def rankTarget (n : ℕ) : List ℚ :=
  (List.range n).map (fun j : ℕ => ((j : ℚ) + 1))

/-- Line 103: labels for F and M (5 is best). -/
def labels_best_high : List ℕ := [1, 2, 3, 4, 5]

/-- Line 104: labels for R (fewer days is better). -/
def labels_best_low : List ℕ := [5, 4, 3, 2, 1]

/-- One row of the frame calculate_rfm_metrics returns.  Segment is the column
segment_customers later adds; it does not exist yet, hence none. -/
structure RFMRow where
  customer_unique_id : String
  Recency : Int
  Frequency : Nat
  Monetary : ℚ
  R_Score : ℕ
  F_Score : ℕ
  M_Score : ℕ
  RFM_Score_Sum : ℕ
  Segment : Option String
deriving DecidableEq

/-- Attach the three scores and their sum (line 116) to a metrics row. -/
def buildRow (b : RFMBase) (s : ℕ × ℕ × ℕ) : RFMRow :=
  { customer_unique_id := b.customer_unique_id, Recency := b.Recency,
    Frequency := b.Frequency, Monetary := b.Monetary,
    R_Score := s.1, F_Score := s.2.1, M_Score := s.2.2,
    RFM_Score_Sum := s.1 + s.2.1 + s.2.2, Segment := none }

/-- Lines 89-118: metrics aggregation, then the three quantile scorings in
source order (R on raw Recency with inverted labels, F on
Frequency.rank(method = first), M on raw Monetary), then the score sum.  A
qcut ValueError propagates and aborts the run (the Except error). -/
def calculate_rfm_metrics (df : List TxRow) : Except ScoringError (List RFMRow) := do
  let base := rfmMetrics df
  let rS ← qcut5 (base.map (fun b => (b.Recency : ℚ))) labels_best_low "R"
  let fS ← qcut5 (rankFirst (base.map (fun b => (b.Frequency : ℚ)))) labels_best_high "F"
  let mS ← qcut5 (base.map (fun b => b.Monetary)) labels_best_high "M"
  pure ((base.zip (rS.zip (fS.zip mS))).map (fun p => buildRow p.1 p.2))

/-- calculate_rfm_metrics only reads its argument (the aggregation builds a
new frame), so the caller's frame after the call is the original. -/
def calculate_rfm_metrics_argAfter (df : List TxRow) : List TxRow := df

/-- The inner _categorize of segment_customers (lines 130-136). -/
def categorize (score : ℕ) : String :=
  if 12 ≤ score then "Gold"
  else if 8 ≤ score then "Silver"
  else "Bronze"

/-- segment_customers: writes the Segment column and returns the frame
(lines 138-139). -/
def segment_customers (rfm_df : List RFMRow) : List RFMRow :=
  rfm_df.map (fun r => { r with Segment := some (categorize r.RFM_Score_Sum) })

/-- segment_customers assigns the new column into the very frame it received
(rfm_df[Segment] = ..., no copy), so the caller's frame after the call is the
returned, segmented frame - not the original. -/
def segment_customers_argAfter (rfm_df : List RFMRow) : List RFMRow :=
  segment_customers rfm_df

/-- Modelled from the spec (4.3, scoring of Recency): quantile-cut the raw
Recency values into 5 buckets and give bucket b the inverted score 5 - b
(bucket of smallest Recency gets 5). -/
def specRecencyScores (recs : List ℚ) : Except ScoringError (List ℕ) :=
  (qcutBins recs "R").map (fun bs => bs.map (fun b => 5 - b))

/-- Modelled from the spec (4.3, scoring of Frequency): first rank the
customers by Frequency with ties broken in stable first-seen order, then
quantile-cut the ranks; bucket b gets score b + 1. -/
def specFrequencyScores (freqs : List ℚ) : Except ScoringError (List ℕ) :=
  (qcutBins (rankFirst freqs) "F").map (fun bs => bs.map (fun b => b + 1))

/-- Modelled from the spec (4.3, scoring of Monetary): quantile-cut the raw
Monetary values with no rank pre-step; bucket b gets score b + 1. -/
def specMonetaryScores (ms : List ℚ) : Except ScoringError (List ℕ) :=
  (qcutBins ms "M").map (fun bs => bs.map (fun b => b + 1))

/-- Rank of a tier label, Gold above Silver above Bronze (0 for anything
else); used to state monotonicity of the segmentation. -/
def tierRank : Option String → ℕ
  | some "Gold" => 3
  | some "Silver" => 2
  | some "Bronze" => 1
  | _ => 0

/-! Concrete tables used to evaluate the pipeline at specific inputs. -/

/-- An RFM row as produced by the aggregator (Segment not yet present). -/
def rfmRow0 : RFMRow :=
  { customer_unique_id := "a", Recency := 1, Frequency := 1, Monetary := 1,
    R_Score := 1, F_Score := 1, M_Score := 1, RFM_Score_Sum := 3,
    Segment := none }

/-- Cleaned transaction of customer a: order o1 bought at time 0, value 1. -/
def txA : TxRow :=
  { customer_unique_id := "a", order_id := "o1",
    order_purchase_timestamp := 0, total_value := 1 }

/-- Cleaned transaction of customer b: order o2 bought one day later, value 2. -/
def txB : TxRow :=
  { customer_unique_id := "b", order_id := "o2",
    order_purchase_timestamp := 86400, total_value := 2 }

/-- A two-customer cleaned table on which every metric has only 2 distinct
values yet all three quintile cuts succeed. -/
def dfTwo : List TxRow := [txA, txB]

/-- First line item of order o1 of customer a (value 1). -/
def txS1 : TxRow :=
  { customer_unique_id := "a", order_id := "o1",
    order_purchase_timestamp := 0, total_value := 1 }

/-- Second line item of the same order o1 of the same customer a (value 2). -/
def txS2 : TxRow :=
  { customer_unique_id := "a", order_id := "o1",
    order_purchase_timestamp := 0, total_value := 2 }

/-- Two customers whose single purchases happen at the same instant, so both
Recency values are equal and the R quintile cut degenerates. -/
def dfEqualRecency : List TxRow :=
  [{ customer_unique_id := "a", order_id := "o1",
     order_purchase_timestamp := 0, total_value := 1 },
   { customer_unique_id := "b", order_id := "o2",
     order_purchase_timestamp := 0, total_value := 2 }]

/-- A raw master-frame row whose order was canceled: the cleaner drops it,
leaving an empty cleaned table. -/
def mergedCanceled : MergedRow :=
  { order_id := "o1", customer_id := "c1", order_status := "canceled",
    order_purchase_timestamp := .val 0, order_approved_at := .null,
    order_delivered_customer_date := .null,
    price := some 1, freight_value := some 2, customer_unique_id := some "a" }

/-- A raw master-frame row that survives cleaning; its freight is null and its
delivery date is unparseable. -/
def mergedDelivered : MergedRow :=
  { order_id := "o1", customer_id := "c1", order_status := "delivered",
    order_purchase_timestamp := .val 0, order_approved_at := .null,
    order_delivered_customer_date := .unparseable,
    price := some 1, freight_value := none, customer_unique_id := some "a" }

/-- The cleaned row clean_data produces from mergedDelivered. -/
def cleanedDelivered : CleanedRow :=
  { order_id := "o1", customer_id := "c1", order_status := "delivered",
    order_purchase_timestamp := some 0, order_approved_at := none,
    order_delivered_customer_date := none,
    price := 1, freight_value := 0, customer_unique_id := some "a",
    total_value := 1 }

/-- The aggregated metrics row of customer a in dfTwo. -/
def baseA : RFMBase :=
  { customer_unique_id := "a", Recency := 2, Frequency := 1, Monetary := 1 }

/-- The aggregated metrics row of customer b in dfTwo. -/
def baseB : RFMBase :=
  { customer_unique_id := "b", Recency := 1, Frequency := 1, Monetary := 2 }

/-- The scored row of customer a in dfTwo. -/
def rowA : RFMRow :=
  { customer_unique_id := "a", Recency := 2, Frequency := 1, Monetary := 1,
    R_Score := 1, F_Score := 1, M_Score := 1, RFM_Score_Sum := 3,
    Segment := none }

/-- The scored row of customer b in dfTwo. -/
def rowB : RFMRow :=
  { customer_unique_id := "b", Recency := 1, Frequency := 1, Monetary := 2,
    R_Score := 5, F_Score := 5, M_Score := 5, RFM_Score_Sum := 15,
    Segment := none }

/-- An order row for exercising the loader joins. -/
def ordA : OrderRow :=
  { order_id := "o1", customer_id := "c1", order_status := "delivered",
    order_purchase_timestamp := .val 0, order_approved_at := .null,
    order_delivered_customer_date := .null }

/-- An item row matching ordA. -/
def itemA : ItemRow := { order_id := "o1", price := 1, freight_value := 2 }

/-- A customer row matching ordA. -/
def custA : CustomerRow := { customer_id := "c1", customer_unique_id := some "a" }

end RFMPipeline

namespace RFMPipeline

/-! Helper lemmas. -/

lemma categorize_cases (s : ℕ) :
    categorize s = "Gold" ∨ categorize s = "Silver" ∨ categorize s = "Bronze" := by
  unfold categorize
  split_ifs <;> simp

lemma tierRank_mono {s t : ℕ} (h : s ≤ t) :
    tierRank (some (categorize s)) ≤ tierRank (some (categorize t)) := by
  unfold categorize
  split_ifs <;> simp [tierRank] <;> omega

lemma mem_segment_customers {rfm_df : List RFMRow} {r : RFMRow}
    (hr : r ∈ segment_customers rfm_df) :
    ∃ x ∈ rfm_df, r = { x with Segment := some (categorize x.RFM_Score_Sum) } := by
  unfold segment_customers at hr
  rcases List.mem_map.mp hr with ⟨x, hx, rfl⟩
  exact ⟨x, hx, rfl⟩

lemma map_eq_self_of_eq {α : Type} {f : α → α} {l : List α} (h : l.map f = l) :
    ∀ x ∈ l, f x = x := by
  induction l with
  | nil => simp
  | cons a as ih =>
    simp only [List.map_cons, List.cons.injEq] at h
    intro x hx
    rcases List.mem_cons.mp hx with rfl | hx
    · exact h.1
    · exact ih h.2 x hx

/-! Claim theorems. -/

/-- Claim C3: the Segmenter maps each score sum to a tier by the fixed
thresholds (sum at least 12 is Gold, at least 8 and below 12 is Silver, below
8 is Bronze), with the stated boundary values; and in segment_customers every
output row carries exactly the tier of its own score sum. -/
theorem claim_C3 :
    (∀ s : ℕ, 12 ≤ s → categorize s = "Gold") ∧
    (∀ s : ℕ, 8 ≤ s → s < 12 → categorize s = "Silver") ∧
    (∀ s : ℕ, s < 8 → categorize s = "Bronze") ∧
    categorize 12 = "Gold" ∧ categorize 11 = "Silver" ∧
    categorize 8 = "Silver" ∧ categorize 7 = "Bronze" ∧
    (∀ (rfm_df : List RFMRow), ∀ r ∈ segment_customers rfm_df,
      r.Segment = some (categorize r.RFM_Score_Sum)) := by
  refine ⟨?_, ?_, ?_, by decide, by decide, by decide, by decide, ?_⟩
  · intro s h; unfold categorize; rw [if_pos h]
  · intro s h1 h2; unfold categorize; rw [if_neg (by omega), if_pos h1]
  · intro s h; unfold categorize; rw [if_neg (by omega), if_neg (by omega)]
  · intro rfm_df r hr
    rcases mem_segment_customers hr with ⟨x, _, rfl⟩
    rfl

/-- Witness for C3 at concrete sums 13, 9 and 3. -/
theorem claim_C3_witness :
    categorize 13 = "Gold" ∧ categorize 9 = "Silver" ∧ categorize 3 = "Bronze" :=
  ⟨claim_C3.1 13 (by decide), claim_C3.2.1 9 (by decide) (by decide),
   claim_C3.2.2.1 3 (by decide)⟩

/-- Claim C9: every segmented row carries one of the three tiers, and the tier
is monotone in the score sum (a higher sum never yields a lower-ranked tier,
with Gold above Silver above Bronze). -/
theorem claim_C9 :
    ∀ rfm_df : List RFMRow,
      (∀ r ∈ segment_customers rfm_df,
        r.Segment = some "Gold" ∨ r.Segment = some "Silver" ∨
        r.Segment = some "Bronze") ∧
      (∀ r1 ∈ segment_customers rfm_df, ∀ r2 ∈ segment_customers rfm_df,
        r1.RFM_Score_Sum ≤ r2.RFM_Score_Sum →
        tierRank r1.Segment ≤ tierRank r2.Segment) := by
  intro rfm_df
  constructor
  · intro r hr
    rcases mem_segment_customers hr with ⟨x, _, rfl⟩
    rcases categorize_cases x.RFM_Score_Sum with h | h | h <;> simp [h]
  · intro r1 h1 r2 h2 hle
    rcases mem_segment_customers h1 with ⟨x1, _, rfl⟩
    rcases mem_segment_customers h2 with ⟨x2, _, rfl⟩
    simpa using tierRank_mono hle

/-- Witness for C9 at a concrete one-row table. -/
theorem claim_C9_witness :
    (rfmRow0.Segment = some "Gold" ∨ rfmRow0.Segment = some "Silver" ∨
      rfmRow0.Segment = some "Bronze") ∨
    ∀ r ∈ segment_customers [rfmRow0],
      r.Segment = some "Gold" ∨ r.Segment = some "Silver" ∨
      r.Segment = some "Bronze" :=
  Or.inr ((claim_C9 [rfmRow0]).1)

/-- Counterexample to C10 as stated: the Segmenter does not leave the table it
receives unchanged; on a one-row table whose Segment column is still absent,
the caller's table after the call differs from the original. -/
theorem claim_C10_counterexample :
    segment_customers_argAfter [rfmRow0] ≠ [rfmRow0] := by
  decide

/-- Claim C10, amended: the Cleaner and the Aggregator leave the table they
receive unchanged, but the Segmenter writes the Segment column into the very
table it received: afterwards the caller's table is the returned segmented
table, which differs from the original whenever some row had no Segment
value yet. -/
theorem claim_C10_amended :
    (∀ df : List MergedRow, clean_data_argAfter df = df) ∧
    (∀ df : List TxRow, calculate_rfm_metrics_argAfter df = df) ∧
    (∀ rfm_df : List RFMRow,
      segment_customers_argAfter rfm_df = segment_customers rfm_df) ∧
    (∀ rfm_df : List RFMRow, (∃ r ∈ rfm_df, r.Segment = none) →
      segment_customers_argAfter rfm_df ≠ rfm_df) := by
  refine ⟨fun _ => rfl, fun _ => rfl, fun _ => rfl, ?_⟩
  rintro rfm_df ⟨r, hr, hseg⟩ h
  have := map_eq_self_of_eq h r hr
  have hseg2 := congrArg RFMRow.Segment this
  simp [hseg] at hseg2

/-- Witness for the amended C10 on a concrete one-row table. -/
theorem claim_C10_amended_witness :
    segment_customers_argAfter [rfmRow0] ≠ [rfmRow0] :=
  claim_C10_amended.2.2.2 [rfmRow0] ⟨rfmRow0, by simp, rfl⟩

/-- Claim C2: every row of the cleaned table has status delivered, a non-null
purchase timestamp and customer-unique id, and total_value = price + freight
with nulls first coerced to 0; and clean_data is exactly the composition
parse dates, filter status, drop nulls, coerce nulls and derive total_value,
in that order. -/
theorem claim_C2 :
    ∀ df : List MergedRow,
      (∀ r ∈ clean_data df,
        r.order_status = "delivered" ∧
        r.order_purchase_timestamp.isSome = true ∧
        r.customer_unique_id.isSome = true ∧
        r.total_value = r.price + r.freight_value ∧
        ∃ p ∈ df.map parseRow,
          p.order_status = "delivered" ∧
          p.order_purchase_timestamp.isSome = true ∧
          p.customer_unique_id.isSome = true ∧
          r = fillRow p ∧ r.price = p.price.getD 0 ∧
          r.freight_value = p.freight_value.getD 0) ∧
      clean_data df =
        (((df.map parseRow).filter (fun r => r.order_status == "delivered")).filter
          (fun r => r.order_purchase_timestamp.isSome && r.customer_unique_id.isSome)).map
          fillRow := by
  intro df
  refine ⟨?_, rfl⟩
  intro r hr
  unfold clean_data at hr
  rcases List.mem_map.mp hr with ⟨p, hp, rfl⟩
  rcases List.mem_filter.mp hp with ⟨hp1, hnn⟩
  rcases List.mem_filter.mp hp1 with ⟨hp2, hst⟩
  have hst' : p.order_status = "delivered" := by simpa using hst
  have hnn' := (Bool.and_eq_true _ _).mp hnn
  refine ⟨hst', hnn'.1, hnn'.2, rfl, p, hp2, hst', hnn'.1, hnn'.2, rfl, rfl, rfl⟩

lemma clean_eval : clean_data [mergedDelivered] = [cleanedDelivered] := by
  show [fillRow (parseRow mergedDelivered)] = [cleanedDelivered]
  norm_num [fillRow, parseRow, mergedDelivered, cleanedDelivered, parseDate]

/-- Witness for C2 on a concrete one-row raw table whose freight is null. -/
theorem claim_C2_witness :
    cleanedDelivered.order_status = "delivered" ∧
    cleanedDelivered.order_purchase_timestamp.isSome = true ∧
    cleanedDelivered.customer_unique_id.isSome = true ∧
    cleanedDelivered.total_value =
      cleanedDelivered.price + cleanedDelivered.freight_value ∧
    ∃ p ∈ [mergedDelivered].map parseRow,
      p.order_status = "delivered" ∧
      p.order_purchase_timestamp.isSome = true ∧
      p.customer_unique_id.isSome = true ∧
      cleanedDelivered = fillRow p ∧
      cleanedDelivered.price = p.price.getD 0 ∧
      cleanedDelivered.freight_value = p.freight_value.getD 0 :=
  (claim_C2 [mergedDelivered]).1 cleanedDelivered (by rw [clean_eval]; simp)

lemma le_foldl_max :
    ∀ (as : List Int) (a x : Int), (x ≤ a ∨ x ∈ as) → x ≤ as.foldl max a
  | [], _, _, h => by
    rcases h with h | h
    · simpa using h
    · simp at h
  | b :: bs, a, x, h => by
    simp only [List.foldl_cons]
    rcases h with h | h
    · exact le_foldl_max bs (max a b) x (Or.inl (le_trans h (le_max_left a b)))
    · rcases List.mem_cons.mp h with rfl | h
      · exact le_foldl_max bs (max a x) x (Or.inl (le_max_right a x))
      · exact le_foldl_max bs (max a b) x (Or.inr h)

lemma foldl_max_le {m : Int} :
    ∀ (as : List Int) (a : Int), a ≤ m → (∀ x ∈ as, x ≤ m) → as.foldl max a ≤ m
  | [], _, ha, _ => ha
  | b :: bs, a, ha, h => by
    simp only [List.foldl_cons]
    exact foldl_max_le bs (max a b) (max_le ha (h b (by simp)))
      (fun x hx => h x (by simp [hx]))

lemma max?_spec {l : List Int} (h : l ≠ []) :
    ∃ m, l.max? = some m ∧ ∀ x ∈ l, x ≤ m := by
  rcases l with _ | ⟨a, as⟩
  · exact absurd rfl h
  · refine ⟨as.foldl max a, rfl, ?_⟩
    intro x hx
    rcases List.mem_cons.mp hx with h1 | h1
    · exact le_foldl_max as a x (Or.inl (le_of_eq h1))
    · exact le_foldl_max as a x (Or.inr h1)

lemma mem_sortedKeys {df : List TxRow} {c : String} :
    c ∈ sortedKeys df ↔ ∃ r ∈ df, r.customer_unique_id = c := by
  unfold sortedKeys
  rw [(List.perm_insertionSort strLe _).mem_iff, List.mem_dedup, List.mem_map]

lemma customerRows_ne_nil {df : List TxRow} {c : String}
    (h : ∃ r ∈ df, r.customer_unique_id = c) : customerRows df c ≠ [] := by
  rcases h with ⟨r, hr, hrc⟩
  exact List.ne_nil_of_mem (List.mem_filter.mpr ⟨hr, by simp [hrc]⟩)

lemma groupMaxTs_le {df : List TxRow} {c : String} {m : Int}
    (hm : ∀ x ∈ df, x.order_purchase_timestamp ≤ m)
    (hne : customerRows df c ≠ []) : groupMaxTs (customerRows df c) ≤ m := by
  unfold groupMaxTs
  rcases hrows : customerRows df c with _ | ⟨s, ss⟩
  · exact absurd hrows hne
  · have hsub : ∀ x ∈ customerRows df c, x.order_purchase_timestamp ≤ m :=
      fun x hx => hm x (List.mem_of_mem_filter hx)
    rw [hrows] at hsub
    simp only [List.map_cons, List.max?, Option.getD_some]
    exact foldl_max_le _ _ (hsub s (by simp))
      (fun x hx => by
        rcases List.mem_map.mp hx with ⟨y, hy, rfl⟩
        exact hsub y (by simp [hy]))

/-- Claim C4: for every customer row of the aggregated table, Frequency is the
number of distinct order ids among that customer's transactions (hence at most
the row count); and in the two-line-items-one-order scenario Frequency is 1
while Monetary sums both line items. -/
theorem claim_C4 :
    (∀ df : List TxRow, ∀ b ∈ rfmMetrics df,
      b.Frequency =
        ((customerRows df b.customer_unique_id).map
          (fun r => r.order_id)).toFinset.card ∧
      b.Frequency ≤ (customerRows df b.customer_unique_id).length) ∧
    (rfmMetrics [txS1, txS2]).map
      (fun b => (b.customer_unique_id, b.Frequency, b.Monetary)) = [("a", 1, 3)] := by
  constructor
  · intro df b hb
    rcases List.mem_map.mp hb with ⟨c, _, rfl⟩
    constructor
    · exact (List.card_toFinset _).symm
    · calc ((customerRows df c).map (fun r => r.order_id)).dedup.length
          ≤ ((customerRows df c).map (fun r => r.order_id)).length :=
            (List.dedup_sublist _).length_le
        _ = (customerRows df c).length := List.length_map _ _
  · have hk : sortedKeys [txS1, txS2] = ["a"] := by decide
    have hr : customerRows [txS1, txS2] "a" = [txS1, txS2] := by decide
    have hd : (([txS1, txS2].map (fun r => r.order_id)).dedup).length = 1 := by decide
    simp only [rfmMetrics, hk, hr, List.map_cons, List.map_nil, hd]
    norm_num [txS1, txS2]

/-- Witness for C4 at the concrete two-line-item table. -/
theorem claim_C4_witness :
    ∃ b ∈ rfmMetrics [txS1, txS2],
      b.Frequency =
        ((customerRows [txS1, txS2] b.customer_unique_id).map
          (fun r => r.order_id)).toFinset.card ∧
      b.Frequency ≤ (customerRows [txS1, txS2] b.customer_unique_id).length := by
  have hk : sortedKeys [txS1, txS2] = ["a"] := by decide
  have hne : rfmMetrics [txS1, txS2] ≠ [] := by
    unfold rfmMetrics
    rw [hk]
    simp
  rcases List.exists_mem_of_ne_nil _ hne with ⟨b, hb⟩
  exact ⟨b, hb, claim_C4.1 [txS1, txS2] b hb⟩

/-- Claim C5: on a non-empty cleaned table the reference instant is the global
maximum purchase timestamp plus one day, each Recency is the floor-days
difference between the reference instant and the customer's latest purchase,
every Recency is at least 1, and a customer whose latest purchase is the
global maximum gets Recency exactly 1. -/
theorem claim_C5 :
    ∀ df : List TxRow, df ≠ [] →
      ∃ m, (df.map (fun r => r.order_purchase_timestamp)).max? = some m ∧
        presentDate df = m + secondsPerDay ∧
        ∀ b ∈ rfmMetrics df,
          b.Recency =
            (presentDate df -
              groupMaxTs (customerRows df b.customer_unique_id)) / secondsPerDay ∧
          1 ≤ b.Recency ∧
          (groupMaxTs (customerRows df b.customer_unique_id) = m →
            b.Recency = 1) := by
  intro df hdf
  have hmap : df.map (fun r => r.order_purchase_timestamp) ≠ [] := by
    simpa using hdf
  rcases max?_spec hmap with ⟨m, hm, hle⟩
  have hle' : ∀ x ∈ df, x.order_purchase_timestamp ≤ m := by
    intro x hx
    exact hle _ (List.mem_map.mpr ⟨x, hx, rfl⟩)
  have hpres : presentDate df = m + secondsPerDay := by
    unfold presentDate
    rw [hm]
    rfl
  refine ⟨m, hm, hpres, ?_⟩
  intro b hb
  rcases List.mem_map.mp hb with ⟨c, hc, rfl⟩
  have hg : groupMaxTs (customerRows df c) ≤ m :=
    groupMaxTs_le hle' (customerRows_ne_nil (mem_sortedKeys.mp hc))
  dsimp only
  refine ⟨rfl, ?_, ?_⟩
  · rw [hpres, show secondsPerDay = (86400 : Int) from rfl]
    omega
  · intro hgm
    rw [hpres, hgm, show secondsPerDay = (86400 : Int) from rfl]
    omega

/-- Witness for C5 at the concrete two-customer table. -/
theorem claim_C5_witness :
    ∃ m, (dfTwo.map (fun r => r.order_purchase_timestamp)).max? = some m ∧
      presentDate dfTwo = m + secondsPerDay ∧
      ∀ b ∈ rfmMetrics dfTwo,
        b.Recency =
          (presentDate dfTwo -
            groupMaxTs (customerRows dfTwo b.customer_unique_id)) / secondsPerDay ∧
        1 ≤ b.Recency ∧
        (groupMaxTs (customerRows dfTwo b.customer_unique_id) = m →
          b.Recency = 1) :=
  claim_C5 dfTwo (by decide)

/-- Claim C7: the loader fails with the source-unavailable error exactly when
one of the three inputs cannot be read (its only failure path); on success it
is exactly the left join of orders with items followed by the inner join with
customers; the left join preserves every order, gives zero-item orders null
item fields, and the inner join only emits rows backed by an order-item row
and a matching customer row. -/
theorem claim_C7 :
    (∀ o i c, load_and_merge_raw_data o i c = .error .sourceUnavailable ↔
      (o = none ∨ i = none ∨ c = none)) ∧
    (∀ os its cs, load_and_merge_raw_data (some os) (some its) (some cs) =
      .ok (mergeCustomers (mergeOrderItems os its) cs)) ∧
    (∀ (os : List OrderRow) (its : List ItemRow), ∀ ord ∈ os,
      ∃ r ∈ mergeOrderItems os its, r.order_id = ord.order_id ∧
        r.customer_id = ord.customer_id) ∧
    (∀ (os : List OrderRow) (its : List ItemRow), ∀ ord ∈ os,
      (∀ it ∈ its, it.order_id ≠ ord.order_id) →
      ∃ r ∈ mergeOrderItems os its, r.order_id = ord.order_id ∧
        r.price = none ∧ r.freight_value = none) ∧
    (∀ (oi : List OrderItemRow) (cs : List CustomerRow),
      ∀ r ∈ mergeCustomers oi cs,
      ∃ x ∈ oi, ∃ cst ∈ cs, cst.customer_id = x.customer_id ∧
        r.order_id = x.order_id ∧ r.customer_id = x.customer_id ∧
        r.price = x.price ∧ r.freight_value = x.freight_value ∧
        r.customer_unique_id = cst.customer_unique_id) := by
  refine ⟨?_, fun _ _ _ => rfl, ?_, ?_, ?_⟩
  · intro o i c
    rcases o with _ | os <;> rcases i with _ | its <;> rcases c with _ | cs <;>
      simp [load_and_merge_raw_data]
  · intro os its ord hord
    by_cases hms :
        (its.filter (fun it => it.order_id == ord.order_id)).isEmpty = true
    · refine ⟨nullItemRow ord,
        List.mem_flatMap.mpr ⟨ord, hord, ?_⟩, rfl, rfl⟩
      unfold orderItemRowsFor
      rw [if_pos hms]
      simp
    · have hne : its.filter (fun it => it.order_id == ord.order_id) ≠ [] := by
        intro hnil
        exact hms (by simp [hnil])
      rcases List.exists_mem_of_ne_nil _ hne with ⟨it, hit⟩
      refine ⟨joinedItemRow ord it,
        List.mem_flatMap.mpr ⟨ord, hord, ?_⟩, rfl, rfl⟩
      unfold orderItemRowsFor
      rw [if_neg hms]
      exact List.mem_map.mpr ⟨it, hit, rfl⟩
  · intro os its ord hord hno
    have hnil : its.filter (fun it => it.order_id == ord.order_id) = [] := by
      rw [List.filter_eq_nil_iff]
      intro it hit
      simpa using hno it hit
    refine ⟨nullItemRow ord,
      List.mem_flatMap.mpr ⟨ord, hord, ?_⟩, rfl, rfl, rfl⟩
    unfold orderItemRowsFor
    rw [if_pos (by simp [hnil])]
    simp
  · intro oi cs r hr
    rcases List.mem_flatMap.mp hr with ⟨x, hx, hmem⟩
    rcases List.mem_map.mp hmem with ⟨cst, hcst, rfl⟩
    rcases List.mem_filter.mp hcst with ⟨hcs, hbeq⟩
    exact ⟨x, hx, cst, hcs, by simpa using hbeq, rfl, rfl, rfl, rfl, rfl⟩

/-- Witness for C7: the left join preserves the concrete order ordA. -/
theorem claim_C7_witness :
    ∃ r ∈ mergeOrderItems [ordA] [itemA], r.order_id = ordA.order_id ∧
      r.customer_id = ordA.customer_id :=
  claim_C7.2.2.1 [ordA] [itemA] ordA (by simp)

/-! Lemmas about the quantile scoring. -/

lemma binOf_le (edges : List ℚ) (v : ℚ) : binOf edges v ≤ 4 := by
  unfold binOf
  calc ((edges.drop 1).take 4).countP (fun e => decide (e < v))
      ≤ ((edges.drop 1).take 4).length := List.countP_le_length _
    _ ≤ 4 := by
        rw [List.length_take]
        exact min_le_left _ _

lemma getD_labels_low {b : ℕ} (hb : b ≤ 4) :
    labels_best_low.getD b 0 = 5 - b := by
  interval_cases b <;> rfl

lemma getD_labels_high {b : ℕ} (hb : b ≤ 4) :
    labels_best_high.getD b 0 = b + 1 := by
  interval_cases b <;> rfl

lemma qcut5_low_eq (xs : List ℚ) :
    qcut5 xs labels_best_low "R" = specRecencyScores xs := by
  unfold qcut5 specRecencyScores qcutBins
  by_cases h : (quantileEdges xs).Nodup
  · rw [if_pos h]
    refine congrArg Except.ok (List.map_congr_left fun b hb => ?_)
    rcases List.mem_map.mp hb with ⟨v, _, rfl⟩
    exact getD_labels_low (binOf_le _ v)
  · rw [if_neg h]
    rfl

lemma qcut5_high_eq (xs : List ℚ) (m : String) :
    qcut5 xs labels_best_high m =
      (qcutBins xs m).map (fun bs => bs.map (fun b => b + 1)) := by
  unfold qcut5 qcutBins
  by_cases h : (quantileEdges xs).Nodup
  · rw [if_pos h]
    refine congrArg Except.ok (List.map_congr_left fun b hb => ?_)
    rcases List.mem_map.mp hb with ⟨v, _, rfl⟩
    exact getD_labels_high (binOf_le _ v)
  · rw [if_neg h]
    rfl

lemma qcutBins_error_shape {xs : List ℚ} {m : String} {e : ScoringError}
    (h : qcutBins xs m = .error e) : e = .bucket m := by
  unfold qcutBins at h
  by_cases hd : (quantileEdges xs).Nodup
  · rw [if_pos hd] at h
    exact absurd h (by simp)
  · rw [if_neg hd] at h
    injection h with h
    exact h.symm

lemma qcut5_error_shape {xs : List ℚ} {labels : List ℕ} {m : String}
    {e : ScoringError} (h : qcut5 xs labels m = .error e) : e = .bucket m := by
  unfold qcut5 at h
  rcases hq : qcutBins xs m with e' | bs
  · rw [hq] at h
    injection h with h
    exact h ▸ qcutBins_error_shape hq
  · rw [hq] at h
    exact absurd h (by simp [Except.map])

lemma quantileEdge_const {l : List ℚ} {r : ℚ} (hne : l ≠ [])
    (hall : ∀ x ∈ l, x = r) {i : ℕ} (hi : i ≤ 5) : quantileEdge l i = r := by
  unfold quantileEdge
  have hlen : 1 ≤ l.length := List.length_pos.mpr hne
  have hlo : (l.length - 1) * i / 5 < l.length := by
    have h1 : (l.length - 1) * i ≤ (l.length - 1) * 5 :=
      Nat.mul_le_mul_left _ hi
    have h2 : (l.length - 1) * i / 5 ≤ (l.length - 1) * 5 / 5 :=
      Nat.div_le_div_right h1
    rw [Nat.mul_div_cancel _ (by norm_num)] at h2
    omega
  have hx0 : l.getD ((l.length - 1) * i / 5) 0 = r := by
    rw [List.getD_eq_getElem l 0 hlo]
    exact hall _ (List.getElem_mem hlo)
  rw [hx0]
  by_cases hlt : (l.length - 1) * i / 5 + 1 < l.length
  · have hx1 : l.getD ((l.length - 1) * i / 5 + 1) r = r := by
      rw [List.getD_eq_getElem l r hlt]
      exact hall _ (List.getElem_mem hlt)
    rw [hx1]
    ring
  · have hx1 : l.getD ((l.length - 1) * i / 5 + 1) r = r :=
      List.getD_eq_default _ _ (by omega)
    rw [hx1]
    ring

lemma quantileEdges_const {xs : List ℚ} {r : ℚ} (hne : xs ≠ [])
    (hall : ∀ x ∈ xs, x = r) : quantileEdges xs = List.replicate 6 r := by
  unfold quantileEdges
  have hs := List.perm_insertionSort (· ≤ ·) xs
  have hne' : List.insertionSort (· ≤ ·) xs ≠ [] := by
    intro h
    exact hne (List.Perm.eq_nil (h ▸ hs).symm)
  have hall' : ∀ x ∈ List.insertionSort (· ≤ ·) xs, x = r :=
    fun x hx => hall x (hs.mem_iff.mp hx)
  apply List.eq_replicate_of_mem
  intro e he
  rcases List.mem_map.mp he with ⟨i, hi, rfl⟩
  exact quantileEdge_const hne' hall' (by
    have := List.mem_range.mp hi
    omega)

lemma qcutBins_const_error {xs : List ℚ} {r : ℚ} (hne : xs ≠ [])
    (hall : ∀ x ∈ xs, x = r) (m : String) :
    qcutBins xs m = .error (.bucket m) := by
  unfold qcutBins
  rw [quantileEdges_const hne hall, if_neg]
  simp [List.nodup_replicate]

lemma quantileEdge_nil (i : ℕ) : quantileEdge [] i = 0 := by
  unfold quantileEdge
  norm_num

lemma qcutBins_nil (m : String) : qcutBins [] m = .error (.bucket m) := by
  unfold qcutBins
  have hrepl : quantileEdges [] = List.replicate 6 0 := by
    unfold quantileEdges
    apply List.eq_replicate_of_mem
    intro e he
    rcases List.mem_map.mp he with ⟨i, _, rfl⟩
    exact quantileEdge_nil i
  rw [hrepl, if_neg]
  simp [List.nodup_replicate]

/-! The rank column of n rows is a permutation of 1..n, so for n at least 2
its quintile edges are pairwise distinct and the cut always succeeds. -/

lemma not_mem_rankSet_self (xs : List ℚ) (i : ℕ) : i ∉ rankSet xs i := by
  intro h
  rcases (Finset.mem_filter.mp h).2 with h2 | ⟨h2, _⟩ <;> exact lt_irrefl _ h2

lemma rankSet_card_le {xs : List ℚ} {i : ℕ} (hi : i < xs.length) :
    (rankSet xs i).card ≤ xs.length - 1 := by
  have hsub : rankSet xs i ⊆ (Finset.range xs.length).erase i := by
    intro j hj
    rcases Finset.mem_filter.mp hj with ⟨hjr, hcond⟩
    refine Finset.mem_erase.mpr ⟨?_, hjr⟩
    rintro rfl
    exact not_mem_rankSet_self xs j hj
  calc (rankSet xs i).card ≤ ((Finset.range xs.length).erase i).card :=
        Finset.card_le_card hsub
    _ = xs.length - 1 := by
        rw [Finset.card_erase_of_mem (Finset.mem_range.mpr hi), Finset.card_range]

lemma rankSet_card_lt_of_le {xs : List ℚ} {i k : ℕ} (hk : k < xs.length)
    (hik : i < k) (hle : xs.getD i 0 ≤ xs.getD k 0) :
    (rankSet xs i).card < (rankSet xs k).card := by
  have hsub : insert i (rankSet xs i) ⊆ rankSet xs k := by
    intro j hj
    rcases Finset.mem_insert.mp hj with rfl | hj
    · refine Finset.mem_filter.mpr ⟨Finset.mem_range.mpr (lt_trans hik hk), ?_⟩
      rcases lt_or_eq_of_le hle with h | h
      · exact Or.inl h
      · exact Or.inr ⟨hik, h⟩
    · rcases Finset.mem_filter.mp hj with ⟨hjr, hcond⟩
      refine Finset.mem_filter.mpr ⟨hjr, ?_⟩
      rcases hcond with h | ⟨hji, heq⟩
      · exact Or.inl (lt_of_lt_of_le h hle)
      · rcases lt_or_eq_of_le hle with h2 | h2
        · exact Or.inl (heq ▸ h2)
        · exact Or.inr ⟨lt_trans hji hik, heq.trans h2⟩
  calc (rankSet xs i).card < (insert i (rankSet xs i)).card := by
        rw [Finset.card_insert_of_not_mem (not_mem_rankSet_self xs i)]
        omega
    _ ≤ (rankSet xs k).card := Finset.card_le_card hsub

lemma rankSet_card_lt_of_gt {xs : List ℚ} {i k : ℕ} (hk : k < xs.length)
    (hlt : xs.getD k 0 < xs.getD i 0) :
    (rankSet xs k).card < (rankSet xs i).card := by
  have hsub : insert k (rankSet xs k) ⊆ rankSet xs i := by
    intro j hj
    rcases Finset.mem_insert.mp hj with rfl | hj
    · exact Finset.mem_filter.mpr ⟨Finset.mem_range.mpr hk, Or.inl hlt⟩
    · rcases Finset.mem_filter.mp hj with ⟨hjr, hcond⟩
      refine Finset.mem_filter.mpr ⟨hjr, ?_⟩
      rcases hcond with h | ⟨_, heq⟩
      · exact Or.inl (lt_trans h hlt)
      · exact Or.inl (heq ▸ hlt)
  calc (rankSet xs k).card < (insert k (rankSet xs k)).card := by
        rw [Finset.card_insert_of_not_mem (not_mem_rankSet_self xs k)]
        omega
    _ ≤ (rankSet xs i).card := Finset.card_le_card hsub

lemma rankSet_card_injOn {xs : List ℚ} {i k : ℕ} (hi : i < xs.length)
    (hk : k < xs.length) (h : (rankSet xs i).card = (rankSet xs k).card) :
    i = k := by
  by_contra hne
  rcases Nat.lt_or_ge i k with hik | hik
  · rcases le_or_lt (xs.getD i 0) (xs.getD k 0) with hle | hlt
    · exact absurd h (ne_of_lt (rankSet_card_lt_of_le hk hik hle))
    · exact absurd h.symm (ne_of_lt (rankSet_card_lt_of_gt hk hlt))
  · have hki : k < i := lt_of_le_of_ne hik (Ne.symm hne)
    rcases le_or_lt (xs.getD k 0) (xs.getD i 0) with hle | hlt
    · exact absurd h.symm (ne_of_lt (rankSet_card_lt_of_le hi hki hle))
    · exact absurd h (ne_of_lt (rankSet_card_lt_of_gt hi hlt))

lemma rankFirst_length (xs : List ℚ) : (rankFirst xs).length = xs.length := by
  simp [rankFirst]

lemma rankFirst_nodup (xs : List ℚ) : (rankFirst xs).Nodup := by
  unfold rankFirst
  refine List.Nodup.map_on ?_ (List.nodup_range _)
  intro i hi k hk hfeq
  have hq : ((rankSet xs i).card : ℚ) = ((rankSet xs k).card : ℚ) := by
    have := add_left_cancel hfeq
    exact_mod_cast this
  exact rankSet_card_injOn (List.mem_range.mp hi) (List.mem_range.mp hk)
    (by exact_mod_cast hq)

lemma rankTarget_length (n : ℕ) : (rankTarget n).length = n := by
  simp [rankTarget]

lemma rankTarget_nodup (n : ℕ) : (rankTarget n).Nodup := by
  unfold rankTarget
  refine List.Nodup.map_on ?_ (List.nodup_range _)
  intro i _ k _ h
  exact_mod_cast add_right_cancel h

lemma rankTarget_sorted (n : ℕ) : List.Sorted (· ≤ ·) (rankTarget n) := by
  unfold rankTarget
  refine List.pairwise_map.mpr ?_
  refine (List.pairwise_lt_range n).imp ?_
  intro a b hab
  have : (a : ℚ) ≤ b := by exact_mod_cast le_of_lt hab
  linarith

lemma rankFirst_subset (xs : List ℚ) :
    rankFirst xs ⊆ rankTarget xs.length := by
  intro v hv
  unfold rankFirst at hv
  rcases List.mem_map.mp hv with ⟨i, hi, rfl⟩
  have hi' := List.mem_range.mp hi
  have hcard := rankSet_card_le hi'
  unfold rankTarget
  refine List.mem_map.mpr ⟨(rankSet xs i).card, List.mem_range.mpr (by omega), ?_⟩
  ring

lemma rankFirst_perm (xs : List ℚ) :
    (rankFirst xs).Perm (rankTarget xs.length) := by
  refine List.Subperm.perm_of_length_le
    ((rankFirst_nodup xs).subperm (rankFirst_subset xs)) ?_
  rw [rankFirst_length, rankTarget_length]

lemma rank_sorted_eq (xs : List ℚ) :
    List.insertionSort (· ≤ ·) (rankFirst xs) = rankTarget xs.length :=
  List.eq_of_perm_of_sorted
    ((List.perm_insertionSort _ _).trans (rankFirst_perm xs))
    (List.sorted_insertionSort _ _) (rankTarget_sorted _)

lemma rankTarget_getD {n j : ℕ} (hj : j < n) (d : ℚ) :
    (rankTarget n).getD j d = (j : ℚ) + 1 := by
  unfold rankTarget
  rw [List.getD_eq_getElem?_getD, List.getElem?_map, List.getElem?_range hj]
  rfl

lemma quantileEdge_rankTarget {n : ℕ} (hn : 2 ≤ n) {i : ℕ} (hi : i ≤ 5) :
    quantileEdge (rankTarget n) i = 1 + (((n - 1) * i : ℕ) : ℚ) / 5 := by
  unfold quantileEdge
  rw [rankTarget_length]
  have hle5 : (n - 1) * i ≤ 5 * (n - 1) := by
    calc (n - 1) * i ≤ (n - 1) * 5 := Nat.mul_le_mul_left _ hi
      _ = 5 * (n - 1) := Nat.mul_comm _ _
  have hdm : 5 * ((n - 1) * i / 5) + (n - 1) * i % 5 = (n - 1) * i :=
    Nat.div_add_mod _ 5
  have hlon : (n - 1) * i / 5 < n := by omega
  have hx0 : (rankTarget n).getD ((n - 1) * i / 5) 0 =
      (((n - 1) * i / 5 : ℕ) : ℚ) + 1 := rankTarget_getD hlon _
  have hcast : (((n - 1) * i : ℕ) : ℚ) =
      5 * (((n - 1) * i / 5 : ℕ) : ℚ) + (((n - 1) * i % 5 : ℕ) : ℚ) := by
    exact_mod_cast congrArg (fun t : ℕ => (t : ℚ)) hdm.symm
  by_cases hcase : (n - 1) * i / 5 + 1 < n
  · have hx1 : (rankTarget n).getD ((n - 1) * i / 5 + 1)
        ((rankTarget n).getD ((n - 1) * i / 5) 0) =
        (((n - 1) * i / 5 + 1 : ℕ) : ℚ) + 1 := rankTarget_getD hcase _
    rw [hx1, hx0, hcast]
    push_cast
    ring
  · have hr0 : (n - 1) * i % 5 = 0 := by omega
    have hx1 : (rankTarget n).getD ((n - 1) * i / 5 + 1)
        ((rankTarget n).getD ((n - 1) * i / 5) 0) =
        (rankTarget n).getD ((n - 1) * i / 5) 0 :=
      List.getD_eq_default _ _ (by rw [rankTarget_length]; omega)
    rw [hx1, hx0, hcast, hr0]
    push_cast
    ring

lemma quantileEdges_rank_nodup {xs : List ℚ} (h2 : 2 ≤ xs.length) :
    (quantileEdges (rankFirst xs)).Nodup := by
  unfold quantileEdges
  rw [rank_sorted_eq xs]
  refine List.Nodup.map_on ?_ (List.nodup_range _)
  intro i hi k hk heq
  have hi' : i < 6 := List.mem_range.mp hi
  have hk' : k < 6 := List.mem_range.mp hk
  rw [quantileEdge_rankTarget h2 (by omega),
    quantileEdge_rankTarget h2 (by omega)] at heq
  have h2 : (((xs.length - 1) * i : ℕ) : ℚ) / 5 =
      (((xs.length - 1) * k : ℕ) : ℚ) / 5 := add_left_cancel heq
  have h5ne : (5 : ℚ) ≠ 0 := by norm_num
  have h3 := congrArg (fun x : ℚ => x * 5) h2
  rw [show (fun x : ℚ => x * 5) ((((xs.length - 1) * i : ℕ) : ℚ) / 5) =
      (((xs.length - 1) * i : ℕ) : ℚ) / 5 * 5 from rfl,
    show (fun x : ℚ => x * 5) ((((xs.length - 1) * k : ℕ) : ℚ) / 5) =
      (((xs.length - 1) * k : ℕ) : ℚ) / 5 * 5 from rfl,
    div_mul_cancel₀ _ h5ne, div_mul_cancel₀ _ h5ne] at h3
  have hnat : (xs.length - 1) * i = (xs.length - 1) * k := by
    exact_mod_cast h3
  rw [Nat.mul_comm (xs.length - 1) i, Nat.mul_comm (xs.length - 1) k] at hnat
  exact Nat.eq_of_mul_eq_mul_right (by omega) hnat

lemma qcutBins_rank_ok {xs : List ℚ} (h2 : 2 ≤ xs.length) (m : String) :
    qcutBins (rankFirst xs) m =
      .ok ((rankFirst xs).map (binOf (quantileEdges (rankFirst xs)))) := by
  unfold qcutBins
  rw [if_pos (quantileEdges_rank_nodup h2)]

lemma qcut5_of_qcutBins_error {xs : List ℚ} {m : String} {e : ScoringError}
    (labels : List ℕ) (h : qcutBins xs m = .error e) :
    qcut5 xs labels m = .error e := by
  unfold qcut5
  rw [h]
  rfl

lemma qcut5_of_qcutBins_ok {xs : List ℚ} {m : String} {bs : List ℕ}
    (labels : List ℕ) (h : qcutBins xs m = .ok bs) :
    qcut5 xs labels m = .ok (bs.map fun b => labels.getD b 0) := by
  unfold qcut5
  rw [h]
  rfl

/-- The do-block of lines 101-116 written out with explicit binds. -/
lemma calculate_rfm_metrics_def (df : List TxRow) :
    calculate_rfm_metrics df =
      (qcut5 ((rfmMetrics df).map (fun b => (b.Recency : ℚ)))
          labels_best_low "R").bind (fun rS =>
        (qcut5 (rankFirst ((rfmMetrics df).map (fun b => (b.Frequency : ℚ))))
            labels_best_high "F").bind (fun fS =>
          (qcut5 ((rfmMetrics df).map (fun b => b.Monetary))
              labels_best_high "M").bind (fun mS =>
            .ok (((rfmMetrics df).zip (rS.zip (fS.zip mS))).map
              (fun p => buildRow p.1 p.2))))) := rfl

/-- Counterexample to C6 as stated will use dfTwo; here is the general result:
the run never aborts blaming the Frequency cut. -/
theorem claim_C6_amended :
    (∀ df : List TxRow, calculate_rfm_metrics df ≠ .error (.bucket "F")) ∧
    (∀ (df : List TxRow) (rc : Int), rfmMetrics df ≠ [] →
      (∀ b ∈ rfmMetrics df, b.Recency = rc) →
      calculate_rfm_metrics df = .error (.bucket "R")) := by
  constructor
  · intro df hcontra
    rw [calculate_rfm_metrics_def] at hcontra
    rcases hR : qcut5 ((rfmMetrics df).map (fun b => (b.Recency : ℚ)))
        labels_best_low "R" with eR | rs
    · rw [hR, qcut5_error_shape hR] at hcontra
      simp [Except.bind] at hcontra
    · have hlen2 : 2 ≤ (rfmMetrics df).length := by
        rcases hbase : rfmMetrics df with _ | ⟨b, rest⟩
        · rw [hbase] at hR
          simp only [List.map_nil] at hR
          rw [qcut5_of_qcutBins_error _ (qcutBins_nil "R")] at hR
          exact absurd hR (by simp)
        · rcases rest with _ | ⟨b2, rest2⟩
          · rw [hbase] at hR
            simp only [List.map_cons, List.map_nil] at hR
            rw [qcut5_of_qcutBins_error _
              (qcutBins_const_error (by simp)
                (show ∀ x ∈ [(b.Recency : ℚ)], x = (b.Recency : ℚ) by simp)
                "R")] at hR
            exact absurd hR (by simp)
          · simp
      have hlf : 2 ≤ ((rfmMetrics df).map (fun b => (b.Frequency : ℚ))).length := by
        rw [List.length_map]
        exact hlen2
      have hF := qcutBins_rank_ok hlf "F"
      rw [hR, qcut5_of_qcutBins_ok labels_best_high hF] at hcontra
      rcases hM : qcut5 ((rfmMetrics df).map (fun b => b.Monetary))
          labels_best_high "M" with eM | ms
      · rw [hM, qcut5_error_shape hM] at hcontra
        simp [Except.bind] at hcontra
      · rw [hM] at hcontra
        simp [Except.bind] at hcontra
  · intro df rc hne hall
    have hne' : (rfmMetrics df).map (fun b => (b.Recency : ℚ)) ≠ [] := by
      simpa using hne
    have hall' : ∀ x ∈ (rfmMetrics df).map (fun b => (b.Recency : ℚ)),
        x = (rc : ℚ) := by
      intro x hx
      rcases List.mem_map.mp hx with ⟨b, hb, rfl⟩
      rw [hall b hb]
    rw [calculate_rfm_metrics_def,
      qcut5_of_qcutBins_error labels_best_low (qcutBins_const_error hne' hall' "R")]
    rfl

/-- Witness for the amended C6: two customers who bought at the same instant
share one Recency value, and the run aborts at the Recency cut. -/
theorem claim_C6_witness :
    calculate_rfm_metrics dfEqualRecency = .error (.bucket "R") := by
  have hk : sortedKeys dfEqualRecency = ["a", "b"] := by decide
  apply claim_C6_amended.2 dfEqualRecency 1
  · unfold rfmMetrics
    rw [hk]
    simp
  · intro b hb
    unfold rfmMetrics at hb
    rw [hk] at hb
    simp only [List.map_cons, List.map_nil, List.mem_cons,
      List.not_mem_nil, or_false] at hb
    rcases hb with rfl | rfl <;> decide

/-- Claim C8: an input whose only order is canceled cleans to an empty table,
as the spec allows; but the aggregation stage then aborts with the bucket
error of the Recency cut (pd.qcut on an empty column has degenerate edges),
instead of producing an empty scored table; the segmentation stage itself
would accept an empty table. -/
theorem claim_C8 :
    clean_data [mergedCanceled] = [] ∧
    toTxRows (clean_data [mergedCanceled]) = [] ∧
    calculate_rfm_metrics (toTxRows (clean_data [mergedCanceled])) =
      .error (.bucket "R") ∧
    segment_customers [] = [] := by
  refine ⟨by decide, by decide, ?_, rfl⟩
  rw [show toTxRows (clean_data [mergedCanceled]) = [] from by decide,
    calculate_rfm_metrics_def,
    show rfmMetrics ([] : List TxRow) = [] from rfl]
  simp only [List.map_nil]
  rw [qcut5_of_qcutBins_error labels_best_low (qcutBins_nil "R")]
  rfl

/-! Concrete evaluation of the scoring on the two-customer table dfTwo. -/

lemma insertionSort_21 : List.insertionSort (· ≤ ·) [(2:ℚ), 1] = [1, 2] := by
  norm_num [List.insertionSort, List.orderedInsert]

lemma insertionSort_12 : List.insertionSort (· ≤ ·) [(1:ℚ), 2] = [1, 2] := by
  norm_num [List.insertionSort, List.orderedInsert]

lemma range6 : List.range 6 = [0, 1, 2, 3, 4, 5] := by decide

lemma edges12 : (List.range 6).map (quantileEdge [(1:ℚ), 2]) =
    [1, 6/5, 7/5, 8/5, 9/5, 2] := by
  rw [range6]
  simp only [List.map_cons, List.map_nil]
  norm_num [quantileEdge, List.getD_cons_zero, List.getD_cons_succ]

lemma nodup_edges12 : ([1, 6/5, 7/5, 8/5, 9/5, (2:ℚ)]).Nodup := by
  norm_num

lemma qcutBins_21 : qcutBins [(2:ℚ), 1] "R" = .ok [4, 0] := by
  unfold qcutBins quantileEdges
  rw [insertionSort_21, edges12, if_pos nodup_edges12]
  norm_num [binOf, List.countP_cons, List.countP_nil]

lemma qcutBins_12 (m : String) : qcutBins [(1:ℚ), 2] m = .ok [0, 4] := by
  unfold qcutBins quantileEdges
  rw [insertionSort_12, edges12, if_pos nodup_edges12]
  norm_num [binOf, List.countP_cons, List.countP_nil]

lemma rfmMetrics_dfTwo : rfmMetrics dfTwo = [baseA, baseB] := by
  have hk : sortedKeys dfTwo = ["a", "b"] := by decide
  have hra : customerRows dfTwo "a" = [txA] := by decide
  have hrb : customerRows dfTwo "b" = [txB] := by decide
  have hpres : presentDate dfTwo = 172800 := by decide
  have hga : groupMaxTs [txA] = 0 := by decide
  have hgb : groupMaxTs [txB] = 86400 := by decide
  unfold rfmMetrics
  rw [hk]
  simp only [List.map_cons, List.map_nil, hra, hrb, hpres, hga, hgb]
  norm_num [baseA, baseB, txA, txB, secondsPerDay]

lemma rankFirst_11 : rankFirst [(1:ℚ), 1] = [1, 2] := by
  have h0 : (rankSet [(1:ℚ), 1] 0).card = 0 := by decide
  have h1 : (rankSet [(1:ℚ), 1] 1).card = 1 := by decide
  unfold rankFirst
  rw [show ([(1:ℚ), 1]).length = 2 from rfl,
    show List.range 2 = [0, 1] from by decide]
  simp only [List.map_cons, List.map_nil, h0, h1]
  norm_num

lemma calc_eval : calculate_rfm_metrics dfTwo = .ok [rowA, rowB] := by
  have hrec : [baseA, baseB].map (fun b => (b.Recency : ℚ)) = [2, 1] := by
    norm_num [baseA, baseB]
  have hfreq : [baseA, baseB].map (fun b => (b.Frequency : ℚ)) = [1, 1] := by
    norm_num [baseA, baseB]
  have hmon : [baseA, baseB].map (fun b => b.Monetary) = [1, 2] := by
    norm_num [baseA, baseB]
  rw [calculate_rfm_metrics_def, rfmMetrics_dfTwo, hrec, hfreq, hmon,
    qcut5_of_qcutBins_ok labels_best_low qcutBins_21, rankFirst_11,
    qcut5_of_qcutBins_ok labels_best_high (qcutBins_12 "F"),
    qcut5_of_qcutBins_ok labels_best_high (qcutBins_12 "M")]
  show Except.ok _ = Except.ok _
  norm_num [buildRow, baseA, baseB, rowA, rowB, labels_best_low, labels_best_high]

lemma labels_low_bounds : ∀ b : ℕ, b ≤ 4 →
    1 ≤ labels_best_low.getD b 0 ∧ labels_best_low.getD b 0 ≤ 5 := by
  intro b hb
  interval_cases b <;> exact ⟨by decide, by decide⟩

lemma labels_high_bounds : ∀ b : ℕ, b ≤ 4 →
    1 ≤ labels_best_high.getD b 0 ∧ labels_best_high.getD b 0 ≤ 5 := by
  intro b hb
  interval_cases b <;> exact ⟨by decide, by decide⟩

lemma mem_qcut5_bounds {xs : List ℚ} {labels : List ℕ} {m : String}
    {ss : List ℕ}
    (hl : ∀ b : ℕ, b ≤ 4 → 1 ≤ labels.getD b 0 ∧ labels.getD b 0 ≤ 5)
    (hok : qcut5 xs labels m = .ok ss) :
    ∀ s ∈ ss, 1 ≤ s ∧ s ≤ 5 := by
  intro s hs
  unfold qcut5 at hok
  rcases hq : qcutBins xs m with e | bs
  · rw [hq] at hok
    exact absurd hok (by simp [Except.map])
  · rw [hq] at hok
    have hss : bs.map (fun b => labels.getD b 0) = ss := by
      simpa [Except.map] using hok
    rw [← hss] at hs
    rcases List.mem_map.mp hs with ⟨b, hb, rfl⟩
    have hb4 : b ≤ 4 := by
      unfold qcutBins at hq
      by_cases hd : (quantileEdges xs).Nodup
      · rw [if_pos hd] at hq
        injection hq with hq
        rw [← hq] at hb
        rcases List.mem_map.mp hb with ⟨v, _, rfl⟩
        exact binOf_le _ v
      · rw [if_neg hd] at hq
        exact absurd hq (by simp)
    exact hl b hb4

lemma row_scores_mem {base : List RFMBase} {rS fS mS : List ℕ} {row : RFMRow}
    (h : row ∈ (base.zip (rS.zip (fS.zip mS))).map (fun p => buildRow p.1 p.2)) :
    row.R_Score ∈ rS ∧ row.F_Score ∈ fS ∧ row.M_Score ∈ mS := by
  rcases List.mem_map.mp h with ⟨p, hp, rfl⟩
  obtain ⟨b, r, f, m⟩ := p
  have h1 := List.of_mem_zip hp
  have h2 := List.of_mem_zip h1.2
  have h3 := List.of_mem_zip h2.2
  exact ⟨h2.1, h3.1, h3.2⟩

/-- Claim C1: the source scoring coincides with the spec policy: Recency is
quantile-cut on the raw values with inverted bucket scores 5 - b, Monetary is
quantile-cut on the raw values with scores b + 1, and Frequency alone is first
rank-transformed (ties broken by stable first-seen order) and then
quantile-cut with scores b + 1; every score a successful run assigns lies in
1..5. -/
theorem claim_C1 :
    (∀ xs : List ℚ, qcut5 xs labels_best_low "R" = specRecencyScores xs) ∧
    (∀ xs : List ℚ,
      qcut5 (rankFirst xs) labels_best_high "F" = specFrequencyScores xs) ∧
    (∀ xs : List ℚ, qcut5 xs labels_best_high "M" = specMonetaryScores xs) ∧
    (∀ (df : List TxRow) (rows : List RFMRow),
      calculate_rfm_metrics df = .ok rows → ∀ row ∈ rows,
      1 ≤ row.R_Score ∧ row.R_Score ≤ 5 ∧ 1 ≤ row.F_Score ∧ row.F_Score ≤ 5 ∧
      1 ≤ row.M_Score ∧ row.M_Score ≤ 5) := by
  refine ⟨qcut5_low_eq, ?_, ?_, ?_⟩
  · intro xs
    unfold specFrequencyScores
    exact qcut5_high_eq _ "F"
  · intro xs
    unfold specMonetaryScores
    exact qcut5_high_eq _ "M"
  · intro df rows hok row hrow
    rw [calculate_rfm_metrics_def] at hok
    rcases hR : qcut5 ((rfmMetrics df).map fun b => (b.Recency : ℚ))
        labels_best_low "R" with e | rs
    · rw [hR] at hok
      exact absurd hok (by simp [Except.bind])
    rcases hF : qcut5 (rankFirst ((rfmMetrics df).map fun b => (b.Frequency : ℚ)))
        labels_best_high "F" with e | fs
    · rw [hR, hF] at hok
      exact absurd hok (by simp [Except.bind])
    rcases hM : qcut5 ((rfmMetrics df).map fun b => b.Monetary)
        labels_best_high "M" with e | ms
    · rw [hR, hF, hM] at hok
      exact absurd hok (by simp [Except.bind])
    rw [hR, hF, hM] at hok
    have hrows : ((rfmMetrics df).zip (rs.zip (fs.zip ms))).map
        (fun p => buildRow p.1 p.2) = rows := by
      simpa [Except.bind] using hok
    rw [← hrows] at hrow
    have hm := row_scores_mem hrow
    have h1 := mem_qcut5_bounds labels_low_bounds hR _ hm.1
    have h2 := mem_qcut5_bounds labels_high_bounds hF _ hm.2.1
    have h3 := mem_qcut5_bounds labels_high_bounds hM _ hm.2.2
    exact ⟨h1.1, h1.2, h2.1, h2.2, h3.1, h3.2⟩

/-- Witness for C1 on the successful concrete run over dfTwo. -/
theorem claim_C1_witness :
    1 ≤ rowA.R_Score ∧ rowA.R_Score ≤ 5 ∧ 1 ≤ rowA.F_Score ∧
    rowA.F_Score ≤ 5 ∧ 1 ≤ rowA.M_Score ∧ rowA.M_Score ≤ 5 :=
  claim_C1.2.2.2 dfTwo [rowA, rowB] calc_eval rowA (by simp)

/-- Counterexample to C6 as stated: on dfTwo both the Recency and the Monetary
metric take only 2 distinct values (fewer than 5), yet the scoring step
succeeds instead of failing with a bucket error. -/
theorem claim_C6_counterexample :
    ((rfmMetrics dfTwo).map (fun b => b.Recency)).toFinset.card < 5 ∧
    ((rfmMetrics dfTwo).map (fun b => b.Monetary)).toFinset.card < 5 ∧
    calculate_rfm_metrics dfTwo = .ok [rowA, rowB] := by
  refine ⟨?_, ?_, calc_eval⟩
  · rw [rfmMetrics_dfTwo]
    decide
  · rw [rfmMetrics_dfTwo]
    decide

end RFMPipeline
